import Mathlib

/-!
# Verification of the ukbutils type-resolution and schema-model core

A shallow embedding, in Lean 4, of the core logic of the `ukbutils`
repository: the type resolver in `src/ukbutils/get_translation_dict.py`
and `src/ukbutils/ukb_tsv_to_parquet.py`, and the schema model
(`UKB_DataDict`) in `src/ukbutils/UKB_data_dict.py`.

Conventions of the embedding:
- Python dicts are insertion-ordered association lists (`List (κ × ν)`);
  `dict[k]` is `List.lookup`, `del dict[k]` removes the pairs with key `k`,
  and `dict[k] = v` updates in place or appends.
- Fallible Python code (raising exceptions) returns `Except`.
- pandas nullable columns are `Option` valued.
- `math.ceil(math.log(n, 2))` is modelled exactly as `Nat.clog 2 n`
  (real-arithmetic semantics of the float computation; see the doc
  comment on `_get_pyarrow_int_func_for_dict`).
- Stateful methods of `UKB_DataDict` become functions from an explicit
  state record to a new state; file and network side effects are recorded
  in an explicit event trace and read from an explicit environment.
-/

namespace UkbUtils

/-! ## Python primitives -/

/-- Python `int.bit_length()` on a natural number: the number of binary
digits, with `(0).bit_length() == 0`.  Implemented with a fuel argument so
that the kernel can evaluate it (the fuel is always sufficient since
halving a positive number `n` reaches `0` within `n` steps). -/
def bitLengthAux : Nat → Nat → Nat
  | _, 0 => 0
  | 0, _ + 1 => 0
  | fuel + 1, n + 1 => bitLengthAux fuel ((n + 1) / 2) + 1

/-- Python `int.bit_length()` for naturals. -/
def pyBitLength (n : Nat) : Nat := bitLengthAux n n

/-- Python `int.bit_length()` on a (possibly negative) integer: Python
defines it as the bit length of the absolute value, so `(-1).bit_length()`
is `1`. -/
def pyBitLengthInt (i : Int) : Nat := pyBitLength i.natAbs

/-! ## `get_translation_dict.py`: index-width selection (C1) -/

/-- Model of `_get_pyarrow_int_func_for_dict`
(`get_translation_dict.py`, lines 50-67).  The source computes

  `bit_length = 2 ** (math.ceil(math.log(num_of_categories, 2)) - 1).bit_length()`

and returns `pa.uint8` when `bit_length <= 8`, else `pa.uint{bit_length}`.
We return the width `N` of the chosen `pa.uintN` constructor.
`math.ceil(math.log(n, 2))` is modelled exactly as `Nat.clog 2 n`; the
float computation agrees with this on the whole relevant domain (checked
exhaustively for `n < 70000`, and the isolated one-ulp excesses of
`math.log` at `2^29`, `2^31`, `2^39`, ... do not change the value of the
outer `bit_length`, hence not the selected width, for any `n ≤ 2^64`). -/
def _get_pyarrow_int_func_for_dict (num_of_categories : Nat) : Nat :=
  let bit_length := 2 ^ pyBitLengthInt ((Nat.clog 2 num_of_categories : Int) - 1)
  if bit_length ≤ 8 then 8 else bit_length

/-- The index width as a function of `ceil(log2 n)` alone;
`_get_pyarrow_int_func_for_dict n = widthFromClog (Nat.clog 2 n)`
holds by definition.  Used to settle finitely many cases by `decide`. -/
def widthFromClog (c : Nat) : Nat :=
  let bit_length := 2 ^ pyBitLengthInt ((c : Int) - 1)
  if bit_length ≤ 8 then 8 else bit_length

/-! ## Data model: storage type descriptors and schema rows -/

/-- A value of the `dtype_dict` / conversion-table mappings, and the result
of type resolution.  In the source these values are untyped Python objects:
a plain dtype (modelled as `scalar`), a two-element list
`["Date", format]` (modelled as `dateFormat`), a pandas
`CategoricalDtype` built from the coding table (`categorical`), or a
pyarrow `pa.dictionary(index_type=pa.uintW(), value_type=v)`
(`dictEnc`). -/
inductive Dtype
  | scalar (name : String)
  | dateFormat (fmt : String)
  | categorical (categories : List String)
  | dictEnc (indexWidth : Nat) (value : Dtype)
deriving DecidableEq

/-- Models `isinstance(v, list) and v[0] == "Date"`: the test the source
uses (in `_find_date_types` and in `get_d_type_dict`'s removal loop) to
recognize a date descriptor. -/
def isDateList : Dtype → Bool
  | .dateFormat _ => true
  | _ => false

/-- Errors raised (as `ValueError` / `KeyError` / `RuntimeError`) by the
type-resolution functions of `get_translation_dict.py`. -/
inductive TypeErr
  | incompleteCoding (udi : String)
  | unmappedEncodingType (encodingType : String)
  | unmappedType (ukbType : String)
  | conversionFailed (udi : String)
  | rowCountNotOne (udi : String)
  | encodingTableUnavailable (encodingId : Nat)
  | runtimeDictMutation
deriving DecidableEq

/-- One row of a coding (encoding) table, after the primary value column
has been renamed to `Code`. -/
structure CodingRow where
  code : String
  meaning : String
  selectable : String
  parentCode : String
deriving DecidableEq

/-- A coding table: ordered rows for one coding identifier. -/
abbrev CodingTable := List CodingRow

/-- One row of the processed main table of the data dictionary
(`UKB_DataDict.main_table`): the raw columns `UDI`, `Type`, `Description`
plus the columns derived by `_process_main_table`.  The derived columns
are stored as data, exactly as the pandas DataFrame stores them; the
function `_process_main_table` below computes them from `Description`. -/
structure MainRow where
  udi : String
  type : String
  description : String
  encodingId : Option Nat
  encodingNumMembers : Option Nat
  encodingType : Option String
  isHierarchical : Bool
deriving DecidableEq

/-! ## Description parsing (`_process_main_table`, C8)

The source derives the coding columns with pandas `str.extract` over
fixed regular expressions and `str.contains`.  `str.extract(pat)` has
`re.search` semantics: it scans left to right for the first position at
which the whole pattern matches and returns the capture, or null when
there is no match.  The three patterns are

  `Uses data-coding (\d+)`
  `Uses data-coding \d+ comprises (\d+)`
  `Uses data-coding \d+ comprises \d+ (\w+)-valued`

For these patterns greedy matching never needs to backtrack (each `\d+` /
`\w+` is followed by a character outside its class), so maximal-munch
scanning below is exactly the regex semantics. -/

/-- If `lit` is a prefix of `s`, return the remainder of `s`, else none. -/
def dropLitPre : List Char → List Char → Option (List Char)
  | [], s => some s
  | _ :: _, [] => none
  | a :: la, b :: lb => if a = b then dropLitPre la lb else none

/-- Numeric value of a string of decimal digits (how Python turns the
captured digit group into the number the rest of the code compares). -/
def natOfDigits (l : List Char) : Nat :=
  l.foldl (fun acc c => acc * 10 + (c.toNat - '0'.toNat)) 0

/-- The `\w` character class (word character). -/
def isWordChar (c : Char) : Bool := c.isAlphanum || c = '_'

/-- Scan for the first suffix of the input on which `f` succeeds:
`re.search` tries every start position from the left. -/
def searchFirst {α : Type} (f : List Char → Option α) : List Char → Option α
  | [] => f []
  | c :: cs =>
    match f (c :: cs) with
    | some v => some v
    | none => searchFirst f cs

/-- Match `Uses data-coding (\d+)` anchored at the start of `s`. -/
def matchEncodingIdAt (s : List Char) : Option Nat :=
  match dropLitPre "Uses data-coding ".data s with
  | none => none
  | some rest =>
    let ds := rest.takeWhile Char.isDigit
    if ds.isEmpty then none else some (natOfDigits ds)

/-- Match `Uses data-coding \d+ comprises (\d+)` anchored at the start. -/
def matchNumMembersAt (s : List Char) : Option Nat :=
  match dropLitPre "Uses data-coding ".data s with
  | none => none
  | some rest =>
    let ds := rest.takeWhile Char.isDigit
    if ds.isEmpty then none
    else
      match dropLitPre " comprises ".data (rest.dropWhile Char.isDigit) with
      | none => none
      | some r2 =>
        let ds2 := r2.takeWhile Char.isDigit
        if ds2.isEmpty then none else some (natOfDigits ds2)

/-- Match `Uses data-coding \d+ comprises \d+ (\w+)-valued` anchored at
the start. -/
def matchEncodingTypeAt (s : List Char) : Option String :=
  match dropLitPre "Uses data-coding ".data s with
  | none => none
  | some rest =>
    let ds := rest.takeWhile Char.isDigit
    if ds.isEmpty then none
    else
      match dropLitPre " comprises ".data (rest.dropWhile Char.isDigit) with
      | none => none
      | some r2 =>
        let ds2 := r2.takeWhile Char.isDigit
        if ds2.isEmpty then none
        else
          match dropLitPre [' '] (r2.dropWhile Char.isDigit) with
          | none => none
          | some r3 =>
            let ws := r3.takeWhile isWordChar
            if ws.isEmpty then none
            else
              match dropLitPre "-valued".data (r3.dropWhile isWordChar) with
              | none => none
              | some _ => some (String.mk ws)

/-- Python `needle in haystack` / pandas `str.contains` with a literal
pattern: substring containment. -/
def pyContainsSub (needle s : List Char) : Bool :=
  (searchFirst (fun t => match dropLitPre needle t with
    | some _ => some true
    | none => none) s).isSome

/-- Model of `_process_main_table` (`UKB_data_dict.py`, lines 186-211)
restricted to one row: derives `Encoding_id`, `Encoding_num_members`,
`Encoding_type` and `Is_hierarchical` from the `Description` column.
(The source also sets `Is_categorical` and `Has_encoding`, which no
function verified here reads.) -/
def _process_main_table (udi ukbType description : String) : MainRow :=
  { udi := udi
    type := ukbType
    description := description
    encodingId := searchFirst matchEncodingIdAt description.data
    encodingNumMembers := searchFirst matchNumMembersAt description.data
    encodingType := searchFirst matchEncodingTypeAt description.data
    isHierarchical := pyContainsSub "hierarchical".data description.data }

/-! ## `get_translation_dict.py`: categorical and column type resolution -/

/-- Result of `_determine_categorical_type`: either the resolved type or
the sentinel string `EXCEEDING MAX LEVELS OF CATEGORY`. -/
inductive CatTypeResult
  | resolved (d : Dtype)
  | exceedingMaxCat
deriving DecidableEq

/-- Model of `_determine_categorical_type` (`get_translation_dict.py`,
lines 163-215).  `conversion_function` abstracts the
`_determine_categorical_type_dtype` / `_determine_categorical_type_pyarrow`
argument.  The source first fails when `Encoding_num_members` or
`Encoding_type` is null, then compares the member count with
`categorical_max_size`. -/
def _determine_categorical_type
    (main_table_entry : MainRow)
    (conversion_table_encoding : List (String × Dtype))
    (conversion_function :
      MainRow → List (String × Dtype) → Nat → Except TypeErr Dtype)
    (categorical_max_size : Nat) : Except TypeErr CatTypeResult :=
  match main_table_entry.encodingNumMembers, main_table_entry.encodingType with
  | some num_members, some _ =>
    if num_members ≤ categorical_max_size then
      (conversion_function main_table_entry conversion_table_encoding
        num_members).map .resolved
    else
      .ok .exceedingMaxCat
  | _, _ => .error (.incompleteCoding main_table_entry.udi)

/-- Model of `_determine_categorical_type_pyarrow`
(`get_translation_dict.py`, lines 70-114): builds
`pa.dictionary(index_type=uintW(), value_type=conversion_table_encoding[encoding_type])`
with `W` chosen by `_get_pyarrow_int_func_for_dict`; any failure inside
(e.g. a missing `Encoding_type` key) is wrapped into a `ValueError`
("Something went wrong ..."), modelled as `conversionFailed`. -/
def _determine_categorical_type_pyarrow
    (main_table_entry : MainRow)
    (conversion_table_encoding : List (String × Dtype))
    (num_members : Nat) : Except TypeErr Dtype :=
  match main_table_entry.encodingType with
  | some encoding_type =>
    match conversion_table_encoding.lookup encoding_type with
    | some v =>
      .ok (.dictEnc (_get_pyarrow_int_func_for_dict num_members) v)
    | none => .error (.conversionFailed main_table_entry.udi)
  | none => .error (.conversionFailed main_table_entry.udi)

/-- Model of `_determine_categorical_type_dtype`
(`get_translation_dict.py`, lines 117-160): fetches the coding table via
`data_dict.get_encoding_table` (abstracted as `get_encoding_table_fn`),
keeps only `selectable == "Y"` rows for hierarchical codings, and builds a
pandas `CategoricalDtype` whose categories are the `Code` column cast to
`conversion_table_encoding[encoding_type]`.  Never yields a date
descriptor. -/
def _determine_categorical_type_dtype
    (get_encoding_table_fn : Nat → Except TypeErr CodingTable)
    (main_table_entry : MainRow)
    (conversion_table_encoding : List (String × Dtype))
    (_num_members : Nat) : Except TypeErr Dtype :=
  match main_table_entry.encodingId with
  | none => .error (.conversionFailed main_table_entry.udi)
  | some encoding_id =>
    match get_encoding_table_fn encoding_id with
    | .error e => .error e
    | .ok my_encoding_table =>
      let selected :=
        if main_table_entry.isHierarchical then
          my_encoding_table.filter (fun row => row.selectable = "Y")
        else my_encoding_table
      match main_table_entry.encodingType with
      | none => .error (.conversionFailed main_table_entry.udi)
      | some encoding_type =>
        match conversion_table_encoding.lookup encoding_type with
        | none => .error (.unmappedEncodingType encoding_type)
        | some _ => .ok (.categorical (selected.map (fun row => row.code)))

/-- Model of `_determine_column_type` (`get_translation_dict.py`, lines
218-292).  `main_table.loc[UDI == column_name].item()` requires exactly
one matching row; `rowCountNotOne` models the `ValueError` pandas raises
otherwise. -/
def _determine_column_type
    (column_name : String)
    (main_table : List MainRow)
    (conversion_table_regular conversion_table_encoding : List (String × Dtype))
    (categorical_conversion_method :
      MainRow → List (String × Dtype) → Nat → Except TypeErr Dtype)
    (cat_cols : List String)
    (categorical_max_size : Nat) : Except TypeErr Dtype :=
  match main_table.filter (fun r => r.udi = column_name) with
  | [main_table_entry] =>
    if main_table_entry.type ∈ cat_cols then
      match _determine_categorical_type main_table_entry
          conversion_table_encoding categorical_conversion_method
          categorical_max_size with
      | .error e => .error e
      | .ok (.resolved my_type) => .ok my_type
      | .ok .exceedingMaxCat =>
        match main_table_entry.encodingType with
        | some encoding_type =>
          match conversion_table_encoding.lookup encoding_type with
          | some my_type => .ok my_type
          | none => .error (.unmappedEncodingType encoding_type)
        | none => .error (.unmappedEncodingType "NaN")
    else
      match conversion_table_regular.lookup main_table_entry.type with
      | some my_type => .ok my_type
      | none => .error (.unmappedType main_table_entry.type)
  | _ => .error (.rowCountNotOne column_name)

/-- Model of `_find_date_types` (`get_translation_dict.py`, lines 29-47):
the keys of one conversion sub-dictionary whose value is a date
descriptor. -/
def _find_date_types (dtype_conversion_dict : List (String × Dtype)) :
    List String :=
  (dtype_conversion_dict.filter (fun kv => isDateList kv.2)).map Prod.fst

/-- The dict comprehension inside `get_d_type_dict`: resolve, in order,
every requested column whose `Type` is not a date key.  As in the source,
the `Type` lookup itself requires exactly one matching row and is
evaluated before the filter decision. -/
def buildTypesDict
    (use_columns : List String)
    (main_table : List MainRow)
    (get_encoding_table_fn : Nat → Except TypeErr CodingTable)
    (conversion_table_regular conversion_table_encoding : List (String × Dtype))
    (cat_cols : List String)
    (max_num_categories : Nat)
    (date_type_keys : List String) : Except TypeErr (List (String × Dtype)) :=
  match use_columns with
  | [] => .ok []
  | col_name :: rest =>
    match main_table.filter (fun r => r.udi = col_name) with
    | [entry] =>
      if entry.type ∈ date_type_keys then
        buildTypesDict rest main_table get_encoding_table_fn
          conversion_table_regular conversion_table_encoding cat_cols
          max_num_categories date_type_keys
      else
        match _determine_column_type col_name main_table
            conversion_table_regular conversion_table_encoding
            (_determine_categorical_type_dtype get_encoding_table_fn)
            cat_cols max_num_categories with
        | .error e => .error e
        | .ok my_type =>
          match buildTypesDict rest main_table get_encoding_table_fn
              conversion_table_regular conversion_table_encoding cat_cols
              max_num_categories date_type_keys with
          | .error e => .error e
          | .ok tail => .ok ((col_name, my_type) :: tail)
    | _ => .error (.rowCountNotOne col_name)

/-- The final loop of `get_d_type_dict`:

    for col_name in types_dict:
        if isinstance(types_dict[col_name], list):
            if types_dict[col_name][0] == "Date":
                del types_dict[col_name]

In Python 3, deleting a key of the dict being iterated makes the very
next iterator step raise `RuntimeError: dictionary changed size during
iteration` (verified for CPython; it is raised even when the deleted
entry was the last one).  So the loop returns the dict unchanged when it
contains no date-descriptor value, and raises otherwise. -/
def pyRemoveDateEntries (types_dict : List (String × Dtype)) :
    Except TypeErr (List (String × Dtype)) :=
  if types_dict.any (fun kv => isDateList kv.2) then
    .error .runtimeDictMutation
  else
    .ok types_dict

/-- Model of `get_d_type_dict` (`get_translation_dict.py`, lines
295-353), the spec's `resolve_storage_types`: build the column-to-dtype
mapping for every requested column whose `Type` is not a date key, then
run the date-entry removal loop. -/
def get_d_type_dict
    (use_columns : List String)
    (main_table : List MainRow)
    (get_encoding_table_fn : Nat → Except TypeErr CodingTable)
    (dtype_dict_type dtype_dict_encoding : List (String × Dtype))
    (cat_cols : List String)
    (max_num_categories : Nat) : Except TypeErr (List (String × Dtype)) :=
  let date_type_keys := _find_date_types dtype_dict_type
  match buildTypesDict use_columns main_table get_encoding_table_fn
      dtype_dict_type dtype_dict_encoding cat_cols max_num_categories
      date_type_keys with
  | .error e => .error e
  | .ok types_dict => pyRemoveDateEntries types_dict

/-! ## `ukb_tsv_to_parquet.py`: type-coverage check (C7) -/

/-- Model of `get_required_type` (`ukb_tsv_to_parquet.py`, lines
849-878).  With `encoding_type = true`: the distinct `Encoding_type`
values (nulls included, as pandas `unique` keeps `NaN`) of the rows whose
`Type` is in `cat_cols`.  With `encoding_type = false`: the distinct
`Type` values not in `cat_cols`, wrapped in `some` to share the return
type (the Python lists are untyped).  `List.dedup` models `unique()` up to
ordering; only membership, emptiness and cardinality are used below. -/
def get_required_type (main_table : List MainRow) (cat_cols : List String)
    (encoding_type : Bool) : List (Option String) :=
  if encoding_type then
    ((main_table.filter (fun r => r.type ∈ cat_cols)).map
      (fun r => r.encodingType)).dedup
  else
    (((main_table.map (fun r => r.type)).dedup.filter
      (fun t => t ∉ cat_cols)).map some)

/-- Model of `create_missing_type_set` (`ukb_tsv_to_parquet.py`, lines
881-897): the required types not present, as a set difference. -/
def create_missing_type_set (present_types required_types : List (Option String)) :
    List (Option String) :=
  required_types.filter (fun t => t ∉ present_types)

/-- Model of `get_missing_types_in_dtype_dict` (`ukb_tsv_to_parquet.py`,
lines 900-924), the spec's `check_type_coverage`: the pair of missing
`Type` keys and missing `Encoding_type` keys. -/
def get_missing_types_in_dtype_dict
    (dtype_dict_type dtype_dict_encoding : List (String × Dtype))
    (main_table : List MainRow)
    (cat_cols : List String) : List (Option String) × List (Option String) :=
  let required_types := get_required_type main_table cat_cols false
  let required_encoding_types := get_required_type main_table cat_cols true
  (create_missing_type_set (dtype_dict_type.map (fun kv => some kv.1))
      required_types,
   create_missing_type_set (dtype_dict_encoding.map (fun kv => some kv.1))
      required_encoding_types)

/-! ## `UKB_data_dict.py`: the schema model and its coding cache

State and effects are explicit:
- `UKB_DataDict` carries the fields of the Python object that the
  verified operations touch (`main_table`, `_data_encoding_tables`,
  `_saved_encodings`, `_encoding_table_limit`).  `_saved_encodings` is the
  recency order, least-recently-used first / most-recently-used last.
- `Env` is the world the retrieval chain reads: the local coding-file
  store, what a network fetch would deposit there, and the coding tables
  embedded in the (already parsed, in-memory) HTML document.
- Every coding-table file or network access performed by an operation is
  recorded in a returned `IOEvent` trace.
-/

/-- Content of a coding-table file (local, or as deposited by the fetch):
absent, present but unreadable, carrying the fixed marker
"Sorry, internal error prevents download of coding", unparsable by
`pd.read_table`, or a parsed table (with the primary value column already
renamed to `Code`, as the source does on load). -/
inductive FileState
  | absent
  | unreadable
  | errorMarked
  | unparsable
  | rawTable (t : CodingTable)

/-- The external world read by the coding-retrieval chain. -/
structure Env where
  localFiles : Nat → FileState
  remote : Nat → FileState
  htmlTables : Nat → Option CodingTable

/-- Coding-table file and network accesses, as recorded in traces. -/
inductive IOEvent
  | fileRead (encodingId : Nat)
  | fileWrite (encodingId : Nat)
  | netFetch (encodingId : Nat)
  | fileDelete (encodingId : Nat)
deriving DecidableEq

/-- Errors raised (all as `ValueError` in the source) by the schema
model; `encodingReadFailed` is the wrapper
`ValueError("No encoding table could be read ...") from e` raised by
`get_encoding_table` and carries its cause. -/
inductive UkbErr
  | invalidEncodingId (encodingId : Nat)
  | encodingNotFoundInHtml (encodingId : Nat)
  | noReadAccess (encodingId : Nat)
  | remoteServerErr (encodingId : Nat)
  | fileMissingAfterDownload (encodingId : Nat)
  | parseFailed (encodingId : Nat)
  | keyErr (encodingId : Nat)
  | invalidLimit
  | fieldIdNotFound (fieldId : String)
  | itemNotUnique (fieldId : String)
  | ambiguousFieldId (fieldId : String)
  | encodingReadFailed (encodingId : Nat) (cause : UkbErr)
deriving DecidableEq

/-- Innermost cause of an error chain (Python's `__cause__` chain set up
by `raise ... from e`). -/
def rootCause : UkbErr → UkbErr
  | .encodingReadFailed _ e => rootCause e
  | e => e

/-- The state of a `UKB_DataDict` instance, restricted to the fields the
verified operations use.  `data_encoding_tables` is the Python dict
`_data_encoding_tables` as an insertion-ordered association list;
`saved_encodings` is the list `_saved_encodings`. -/
structure UKB_DataDict where
  main_table : List MainRow
  data_encoding_tables : List (Nat × CodingTable)
  saved_encodings : List Nat
  encoding_table_limit : Nat
deriving DecidableEq

/-- Model of `_encoding_id_is_valid` (`UKB_data_dict.py`, lines 307-317):
membership of the id among the main table's `Encoding_id` values. -/
def _encoding_id_is_valid (d : UKB_DataDict) (encoding_id : Nat) : Bool :=
  d.main_table.any (fun r => r.encodingId = some encoding_id)

/-- Model of `_encoding_is_hierarchical` (`UKB_data_dict.py`, lines
319-333): the `Is_hierarchical` flag of the first row carrying the id
(`iloc[0]`; `none` models the `IndexError` when no row matches, which is
unreachable after validation). -/
def _encoding_is_hierarchical (d : UKB_DataDict) (encoding_id : Nat) :
    Option Bool :=
  match d.main_table.filter (fun r => r.encodingId = some encoding_id) with
  | [] => none
  | r :: _ => some r.isHierarchical

/-- Model of `_download_encoding_table` (`UKB_data_dict.py`, lines
213-239): re-validates the id, then runs curl (one network fetch writing
the remote content to the templated path).  `sp.run` is not checked, so
the download step itself never fails after validation. -/
def _download_encoding_table (d : UKB_DataDict) (encoding_id : Nat) :
    Except UkbErr Unit × List IOEvent :=
  if _encoding_id_is_valid d encoding_id then
    (.ok (), [.netFetch encoding_id, .fileWrite encoding_id])
  else
    (.error (.invalidEncodingId encoding_id), [])

/-- Reading and parsing the coding file once its content is known:
shared tail of `_get_encoding_table_from_file`.  A successful `open`+read
is one `fileRead`; the error marker causes a delete and a failure; an
unparsable file fails in `pd.read_table`. -/
def readEncodingFileContent (encoding_id : Nat) (content : FileState) :
    Except UkbErr CodingTable × List IOEvent :=
  match content with
  | .absent => (.error (.fileMissingAfterDownload encoding_id), [])
  | .unreadable => (.error (.noReadAccess encoding_id), [])
  | .errorMarked =>
    (.error (.remoteServerErr encoding_id),
     [.fileRead encoding_id, .fileDelete encoding_id])
  | .unparsable => (.error (.parseFailed encoding_id), [.fileRead encoding_id])
  | .rawTable t => (.ok t, [.fileRead encoding_id])

/-- Model of `_get_encoding_table_from_file` (`UKB_data_dict.py`, lines
241-280): if the templated file is absent, download first (after which
the file holds what the remote deposited); if present but unreadable,
fail; then read the file, delete-and-fail on the error marker, else parse
it (skipping 7 boilerplate lines) and rename the value column to
`Code`. -/
def _get_encoding_table_from_file (d : UKB_DataDict) (env : Env)
    (encoding_id : Nat) : Except UkbErr CodingTable × List IOEvent :=
  match env.localFiles encoding_id with
  | .absent =>
    match _download_encoding_table d encoding_id with
    | (.error e, evs) => (.error e, evs)
    | (.ok _, evs) =>
      match readEncodingFileContent encoding_id (env.remote encoding_id) with
      | (res, evs2) => (res, evs ++ evs2)
  | .unreadable => (.error (.noReadAccess encoding_id), [])
  | content => readEncodingFileContent encoding_id content

/-- Model of `_get_encoding_table_from_html` (`UKB_data_dict.py`, lines
282-305): the embedded table captioned `Coding {id}`, from the in-memory
parsed document (no file or network access). -/
def _get_encoding_table_from_html (env : Env) (encoding_id : Nat) :
    Except UkbErr CodingTable :=
  match env.htmlTables encoding_id with
  | none => .error (.encodingNotFoundInHtml encoding_id)
  | some t => .ok t

/-- Model of `_retrieve_encoding_table` (`UKB_data_dict.py`, lines
335-356): validate the id first (before any coding-file or network
access), then dispatch on `Is_hierarchical`. -/
def _retrieve_encoding_table (d : UKB_DataDict) (env : Env)
    (encoding_id : Nat) : Except UkbErr CodingTable × List IOEvent :=
  if _encoding_id_is_valid d encoding_id then
    match _encoding_is_hierarchical d encoding_id with
    | some true => _get_encoding_table_from_file d env encoding_id
    | some false => (_get_encoding_table_from_html env encoding_id, [])
    | none => (.error (.invalidEncodingId encoding_id), [])
  else
    (.error (.invalidEncodingId encoding_id), [])

/-- Python `del dict[k]` for the association-list dict. -/
def dictErase (k : Nat) (m : List (Nat × CodingTable)) :
    List (Nat × CodingTable) :=
  m.filter (fun kv => kv.1 ≠ k)

/-- Python `dict[k] = v`: update in place when the key exists, else
append. -/
def dictInsert (k : Nat) (v : CodingTable) (m : List (Nat × CodingTable)) :
    List (Nat × CodingTable) :=
  if m.any (fun kv => kv.1 = k) then
    m.map (fun kv => if kv.1 = k then (k, v) else kv)
  else
    m ++ [(k, v)]

/-- The `while` loop of `_remove_oldest_if_needed_encoding_cache`
(`UKB_data_dict.py`, lines 372-379): while the recency list is longer
than the limit, delete the dict entry of its head (the least-recently-used
id) and drop the head. -/
def removeOldestLoop (limit : Nat) :
    List (Nat × CodingTable) → List Nat →
    List (Nat × CodingTable) × List Nat
  | tables, [] => (tables, [])
  | tables, oldest :: rest =>
    if rest.length + 1 ≤ limit then (tables, oldest :: rest)
    else removeOldestLoop limit (dictErase oldest tables) rest

/-- Model of `_remove_oldest_if_needed_encoding_cache`. -/
def _remove_oldest_if_needed_encoding_cache (d : UKB_DataDict) : UKB_DataDict :=
  { d with
    data_encoding_tables := (removeOldestLoop d.encoding_table_limit
      d.data_encoding_tables d.saved_encodings).1,
    saved_encodings := (removeOldestLoop d.encoding_table_limit
      d.data_encoding_tables d.saved_encodings).2 }

/-- Model of the `encoding_table_limit` setter (`UKB_data_dict.py`, lines
139-155): a non-positive limit is rejected with `ValueError`; otherwise
the limit is stored and eviction runs down to the new limit.  The `Nat`
argument encodes the non-negative integers; `0` is the non-positive
case. -/
def set_encoding_table_limit (d : UKB_DataDict) (limit : Nat) :
    Except UkbErr UKB_DataDict :=
  if limit = 0 then .error .invalidLimit
  else .ok (_remove_oldest_if_needed_encoding_cache
    { d with encoding_table_limit := limit })

/-- Model of `_update_saved_encoding_order` (`UKB_data_dict.py`, lines
381-390): `list.remove` drops the first occurrence, then the id is
appended as most-recently-used. -/
def _update_saved_encoding_order (d : UKB_DataDict) (encoding_id : Nat) :
    UKB_DataDict :=
  { d with saved_encodings :=
      d.saved_encodings.erase encoding_id ++ [encoding_id] }

/-- Model of `_add_encoding_table_to_cache` (`UKB_data_dict.py`, lines
392-403).  The retrieval runs first; only if it succeeds are the dict
entry and the recency-list entry added and eviction run.  On failure the
exception propagates with the cache fields untouched (the right-hand side
of `self._data_encoding_tables[id] = self._retrieve_encoding_table(id)`
is evaluated before any assignment). -/
def _add_encoding_table_to_cache (d : UKB_DataDict) (env : Env)
    (encoding_id : Nat) : UKB_DataDict × Except UkbErr Unit × List IOEvent :=
  match _retrieve_encoding_table d env encoding_id with
  | (.error e, evs) => (d, .error e, evs)
  | (.ok t, evs) =>
    (_remove_oldest_if_needed_encoding_cache
      { d with
        data_encoding_tables := dictInsert encoding_id t d.data_encoding_tables,
        saved_encodings := d.saved_encodings ++ [encoding_id] },
      .ok (), evs)

/-- Model of `get_encoding_table` (`UKB_data_dict.py`, lines 405-428):
on a cache miss, add (wrapping any failure as
`ValueError("No encoding table could be read ...") from e`); on a hit,
only touch the recency order; finally return
`self._data_encoding_tables[encoding_id]` (whose hypothetical `KeyError`
is `keyErr`). -/
def get_encoding_table (d : UKB_DataDict) (env : Env) (encoding_id : Nat) :
    UKB_DataDict × Except UkbErr CodingTable × List IOEvent :=
  if (d.data_encoding_tables.lookup encoding_id).isSome then
    match (_update_saved_encoding_order d
        encoding_id).data_encoding_tables.lookup encoding_id with
    | some t => (_update_saved_encoding_order d encoding_id, .ok t, [])
    | none => (_update_saved_encoding_order d encoding_id,
        .error (.keyErr encoding_id), [])
  else
    match _add_encoding_table_to_cache d env encoding_id with
    | (d1, .error e, evs) =>
      (d1, .error (.encodingReadFailed encoding_id e), evs)
    | (d1, .ok _, evs) =>
      match d1.data_encoding_tables.lookup encoding_id with
      | some t => (d1, .ok t, evs)
      | none => (d1, .error (.keyErr encoding_id), evs)

/-! ## `UKB_data_dict.py`: field-name resolution (C9) -/

/-- pandas `UDI.str.split("-", expand=True)[0]`: the part of the string
before its first `-`, or the whole string when there is none. -/
def splitDashHead (s : String) : String :=
  String.mk (s.data.takeWhile (fun c => c ≠ '-'))

/-- Python `description.split(" Uses data-coding", 1)[0]`: the part
before the first occurrence of the separator, or the whole string. -/
def takeUntilLit (needle : List Char) : List Char → List Char
  | [] => []
  | c :: cs =>
    if (dropLitPre needle (c :: cs)).isSome then []
    else c :: takeUntilLit needle cs

/-- The truncation `get_human_readable_name` applies to the returned
description. -/
def stripCodingNote (description : String) : String :=
  String.mk (takeUntilLit " Uses data-coding".data description.data)

/-- Model of `get_human_readable_name` (`UKB_data_dict.py`, lines
478-533), the spec's `resolve_field` name-resolution mode.  With
`is_udi = false` the id is matched against the part of each `UDI` before
its first `-`; several matches with non-identical descriptions are
ambiguous, otherwise the first match's description is returned, truncated
at `" Uses data-coding"`. -/
def get_human_readable_name (main_table : List MainRow) (field_id : String)
    (is_udi : Bool) : Except UkbErr String :=
  if is_udi then
    match main_table.filter (fun r => r.udi = field_id) with
    | [] => .error (.fieldIdNotFound field_id)
    | [r] => .ok (stripCodingNote r.description)
    | _ => .error (.itemNotUnique field_id)
  else
    match main_table.filter (fun r => splitDashHead r.udi = field_id) with
    | [] => .error (.fieldIdNotFound field_id)
    | [r] => .ok (stripCodingNote r.description)
    | r :: rest =>
      if (((r :: rest).map (fun x => x.description)).dedup).length > 1 then
        .error (.ambiguousFieldId field_id)
      else
        .ok (stripCodingNote r.description)

/-! ## Cache invariant -/

/-- The keys of the association-list dict. -/
def dictKeys (m : List (Nat × CodingTable)) : List Nat := m.map Prod.fst

/-- Consistency of the coding cache, as established by construction and
maintained by every operation: the recency list has no duplicates, the
dict holds exactly the ids of the recency list, and the capacity is
positive (the constructor and the setter reject non-positive limits). -/
def cacheConsistent (d : UKB_DataDict) : Prop :=
  d.saved_encodings.Nodup ∧
  (dictKeys d.data_encoding_tables).Perm d.saved_encodings ∧
  1 ≤ d.encoding_table_limit

/-- The capacity bound of the coding cache. -/
def cacheBounded (d : UKB_DataDict) : Prop :=
  d.saved_encodings.length ≤ d.encoding_table_limit ∧
  d.data_encoding_tables.length ≤ d.encoding_table_limit

/-! # Theorems -/

/-! ## C1: dictionary index width selection -/

/-- Finite core of C1: for every value `c` of `ceil(log2 n)` up to 64,
the width computed by the source formula is the right one. -/
theorem widthFromClog_cases : ∀ c : Nat, c ≤ 64 →
    (c ≤ widthFromClog c) ∧
    (c ≤ 8 → widthFromClog c = 8) ∧
    (8 < c → c ≤ 16 → widthFromClog c = 16) ∧
    (16 < c → c ≤ 32 → widthFromClog c = 32) ∧
    (32 < c → widthFromClog c = 64) ∧
    (c ≤ 8 → widthFromClog c ≤ 8) ∧
    (c ≤ 16 → widthFromClog c ≤ 16) ∧
    (c ≤ 32 → widthFromClog c ≤ 32) ∧
    (widthFromClog c ≤ 64) := by decide

/-- C1: for every categorical field resolved on the dictionary-encoded
path (coding member count `n` with `1 ≤ n ≤ 2^64`), the selected
dictionary index width is the smallest member of `{8, 16, 32, 64}` whose
representable range (`2^width` values) is at least `n`; in particular
cardinalities 1-256 select width 8, 257-65536 select width 16, and 65537
selects width 32. -/
theorem c1_index_width_selection (n : Nat) (h1 : 1 ≤ n) (h64 : n ≤ 2 ^ 64) :
    (_get_pyarrow_int_func_for_dict n ∈ [8, 16, 32, 64] ∧
      n ≤ 2 ^ _get_pyarrow_int_func_for_dict n ∧
      ∀ w ∈ [8, 16, 32, 64], n ≤ 2 ^ w → _get_pyarrow_int_func_for_dict n ≤ w) ∧
    (n ≤ 256 → _get_pyarrow_int_func_for_dict n = 8) ∧
    (257 ≤ n → n ≤ 65536 → _get_pyarrow_int_func_for_dict n = 16) ∧
    (n = 65537 → _get_pyarrow_int_func_for_dict n = 32) := by
  have hb : (1 : Nat) < 2 := one_lt_two
  have hfun : _get_pyarrow_int_func_for_dict n = widthFromClog (Nat.clog 2 n) := rfl
  have hclog : ∀ w : Nat, n ≤ 2 ^ w ↔ Nat.clog 2 n ≤ w := fun w =>
    Nat.le_pow_iff_clog_le hb
  have hc64 : Nat.clog 2 n ≤ 64 := (hclog 64).mp h64
  obtain ⟨hle, h8, h16, h32, h64w, hm8, hm16, hm32, hm64⟩ :=
    widthFromClog_cases (Nat.clog 2 n) hc64
  rw [hfun]
  refine ⟨⟨?_, ?_, ?_⟩, ?_, ?_, ?_⟩
  · by_cases hc8 : Nat.clog 2 n ≤ 8
    · simp [h8 hc8]
    · by_cases hc16 : Nat.clog 2 n ≤ 16
      · simp [h16 (Nat.lt_of_not_le hc8) hc16]
      · by_cases hc32 : Nat.clog 2 n ≤ 32
        · simp [h32 (Nat.lt_of_not_le hc16) hc32]
        · simp [h64w (Nat.lt_of_not_le hc32)]
  · exact (hclog _).mpr hle
  · intro w hw hnw
    have hcw := (hclog w).mp hnw
    rcases List.mem_cons.mp hw with h | hw
    · exact h ▸ hm8 (h ▸ hcw)
    rcases List.mem_cons.mp hw with h | hw
    · exact h ▸ hm16 (h ▸ hcw)
    rcases List.mem_cons.mp hw with h | hw
    · exact h ▸ hm32 (h ▸ hcw)
    rcases List.mem_cons.mp hw with h | hw
    · exact h ▸ hm64
    · exact absurd hw (List.not_mem_nil w)
  · intro hn
    exact h8 ((hclog 8).mp (by exact_mod_cast hn))
  · intro hn1 hn2
    have hgt : 8 < Nat.clog 2 n := by
      by_contra hcon
      have := (hclog 8).mpr (Nat.le_of_not_lt hcon)
      omega
    exact h16 hgt ((hclog 16).mp (by exact_mod_cast hn2))
  · intro hn
    have hgt : 16 < Nat.clog 2 n := by
      by_contra hcon
      have := (hclog 16).mpr (Nat.le_of_not_lt hcon)
      omega
    exact h32 hgt ((hclog 32).mp (by rw [hn]; norm_num))

/-- Witness for C1 at the concrete cardinality 65537. -/
theorem c1_index_width_selection_witness :
    (1 ≤ 65537 ∧ 65537 ≤ 2 ^ 64) ∧
      _get_pyarrow_int_func_for_dict 65537 = 32 :=
  ⟨⟨by decide, by decide⟩,
    (c1_index_width_selection 65537 (by decide) (by decide)).2.2.2 rfl⟩

/-! ## C4: cutoff boundary behaviour -/

/-- C4: for a categorical field with coding member count `nm`, member
counts up to the cutoff resolve through the dictionary-encoded path (the
categorical conversion function; instantiated with the pyarrow one this
is a dictionary descriptor over the mapped value type), and a member
count of exactly `cutoff + 1` resolves to the scalar fallback taken
directly from the coding-value-kind mapping. -/
theorem c4_cutoff_boundary
    (row : MainRow) (ct ce : List (String × Dtype))
    (f : MainRow → List (String × Dtype) → Nat → Except TypeErr Dtype)
    (cat_cols : List String) (cutoff nm : Nat) (et : String) (fallback : Dtype)
    (hcat : row.type ∈ cat_cols)
    (hnm : row.encodingNumMembers = some nm)
    (het : row.encodingType = some et)
    (hfb : ce.lookup et = some fallback) :
    (nm ≤ cutoff →
      _determine_column_type row.udi [row] ct ce f cat_cols cutoff =
        f row ce nm) ∧
    (nm ≤ cutoff →
      _determine_column_type row.udi [row] ct ce
          _determine_categorical_type_pyarrow cat_cols cutoff =
        .ok (.dictEnc (_get_pyarrow_int_func_for_dict nm) fallback)) ∧
    (nm = cutoff + 1 →
      _determine_column_type row.udi [row] ct ce f cat_cols cutoff =
        .ok fallback) := by
  have hrow : ([row].filter (fun r => r.udi = row.udi)) = [row] := by
    simp [List.filter]
  refine ⟨?_, ?_, ?_⟩
  · intro hle
    simp only [_determine_column_type, hrow, if_pos hcat,
      _determine_categorical_type, hnm, het, if_pos hle]
    cases hf : f row ce nm <;> simp [hf, Except.map]
  · intro hle
    simp only [_determine_column_type, hrow, if_pos hcat,
      _determine_categorical_type, hnm, het, if_pos hle,
      _determine_categorical_type_pyarrow, hfb]
    rfl
  · intro heq
    have hgt : ¬ nm ≤ cutoff := by omega
    simp only [_determine_column_type, hrow, if_pos hcat,
      _determine_categorical_type, hnm, het, if_neg hgt, hfb]

/-- Witness for C4 at cutoff 2 with a member count of 3 = cutoff + 1:
the scalar fallback from the coding-value-kind mapping is returned. -/
theorem c4_cutoff_boundary_witness :
    ("Categorical (single)" ∈ ["Categorical (single)"] ∧
      (⟨"100-0.0", "Categorical (single)", "", none, some 3, some "Integer",
        false⟩ : MainRow).encodingNumMembers = some 3 ∧ (3 : Nat) = 2 + 1) ∧
    _determine_column_type "100-0.0"
        [⟨"100-0.0", "Categorical (single)", "", none, some 3, some "Integer",
          false⟩]
        [] [("Integer", Dtype.scalar "Int64")]
        (fun _ _ _ => .ok (.scalar "unused")) ["Categorical (single)"] 2 =
      .ok (Dtype.scalar "Int64") :=
  ⟨⟨by decide, rfl, rfl⟩,
    (c4_cutoff_boundary
      ⟨"100-0.0", "Categorical (single)", "", none, some 3, some "Integer",
        false⟩
      [] [("Integer", Dtype.scalar "Int64")]
      (fun _ _ _ => .ok (.scalar "unused")) ["Categorical (single)"] 2 3
      "Integer" (Dtype.scalar "Int64")
      (by decide) rfl rfl (by decide)).2.2 rfl⟩

/-! ## C2: date descriptors and the returned mapping (code bug) -/

/-- C2 is violated by the code: for a categorical field whose member
count exceeds the cutoff and whose coding-value-kind maps to a date
descriptor, `get_d_type_dict` does not return a mapping with the field
absent; it deletes the entry from `types_dict` while iterating over it,
so the call raises `RuntimeError: dictionary changed size during
iteration`.  This theorem evaluates the model at such an input. -/
theorem c2_date_fallback_raises_runtime_error :
    get_d_type_dict ["100-0.0"]
      [⟨"100-0.0", "Categorical (single)", "", none, some 3, some "Date",
        false⟩]
      (fun _ => .error (.encodingTableUnavailable 0))
      [("Integer", Dtype.scalar "Int64")]
      [("Date", Dtype.dateFormat "%Y-%m-%d")]
      ["Categorical (single)"] 2 =
    .error .runtimeDictMutation := by rfl

/-! ## C8: description parsing round trip -/

/-- C8: parsing the literal description
`"Uses data-coding 100261 comprises 5 Integer-valued hierarchical"`
yields coding id 100261, member count 5, kind `Integer` and the
hierarchical flag; and sub-patterns absent from a description yield null
attributes rather than errors (shown both for a description with no
coding reference at all and for one carrying only the id part). -/
theorem c8_description_round_trip :
    ((_process_main_table "21-0.0" "Categorical (single)"
        "Uses data-coding 100261 comprises 5 Integer-valued hierarchical").encodingId
          = some 100261 ∧
      (_process_main_table "21-0.0" "Categorical (single)"
        "Uses data-coding 100261 comprises 5 Integer-valued hierarchical").encodingNumMembers
          = some 5 ∧
      (_process_main_table "21-0.0" "Categorical (single)"
        "Uses data-coding 100261 comprises 5 Integer-valued hierarchical").encodingType
          = some "Integer" ∧
      (_process_main_table "21-0.0" "Categorical (single)"
        "Uses data-coding 100261 comprises 5 Integer-valued hierarchical").isHierarchical
          = true) ∧
    ((_process_main_table "31-0.0" "Integer" "Age at recruitment").encodingId
        = none ∧
      (_process_main_table "31-0.0" "Integer" "Age at recruitment").encodingNumMembers
        = none ∧
      (_process_main_table "31-0.0" "Integer" "Age at recruitment").encodingType
        = none ∧
      (_process_main_table "31-0.0" "Integer" "Age at recruitment").isHierarchical
        = false) ∧
    ((_process_main_table "41-0.0" "Categorical (single)"
        "Uses data-coding 42").encodingId = some 42 ∧
      (_process_main_table "41-0.0" "Categorical (single)"
        "Uses data-coding 42").encodingNumMembers = none ∧
      (_process_main_table "41-0.0" "Categorical (single)"
        "Uses data-coding 42").encodingType = none) := by
  refine ⟨⟨?_, ?_, ?_, ?_⟩, ⟨?_, ?_, ?_, ?_⟩, ?_, ?_, ?_⟩ <;> rfl

/-! ## C7: type-coverage check (corrected) -/

/-- The claim C7, as stated, is false on the code: adding one mapping
entry whose key is not among the required types changes the membership of
neither missing set (here both sets are empty before and after adding an
unused `"Text"` entry), not of exactly one set. -/
theorem c7_exactly_one_counterexample :
    get_missing_types_in_dtype_dict [("Integer", Dtype.scalar "Int64")] []
        [⟨"21-0.0", "Integer", "", none, none, none, false⟩] [] = ([], []) ∧
    get_missing_types_in_dtype_dict
        [("Integer", Dtype.scalar "Int64"), ("Text", Dtype.scalar "str")] []
        [⟨"21-0.0", "Integer", "", none, none, none, false⟩] [] = ([], []) := by
  exact ⟨rfl, rfl⟩

/-- Emptiness of one missing set means every required entry is present. -/
theorem create_missing_type_set_eq_nil (present required : List (Option String)) :
    create_missing_type_set present required = [] ↔
      ∀ x ∈ required, x ∈ present := by
  simp [create_missing_type_set, List.filter_eq_nil_iff]

/-- Membership in the required regular types. -/
theorem mem_get_required_type_false (mt : List MainRow) (cat_cols : List String)
    (x : Option String) :
    x ∈ get_required_type mt cat_cols false ↔
      ∃ r ∈ mt, r.type ∉ cat_cols ∧ x = some r.type := by
  rw [show get_required_type mt cat_cols false =
      (((mt.map (fun r => r.type)).dedup.filter
        (fun t => t ∉ cat_cols)).map some) from rfl, List.mem_map]
  constructor
  · rintro ⟨t, htf, rfl⟩
    rw [List.mem_filter] at htf
    obtain ⟨htd, hp⟩ := htf
    rw [List.mem_dedup, List.mem_map] at htd
    obtain ⟨r, hr, rfl⟩ := htd
    exact ⟨r, hr, by simpa using hp, rfl⟩
  · rintro ⟨r, hr, hnc, rfl⟩
    exact ⟨r.type, List.mem_filter.mpr
      ⟨List.mem_dedup.mpr (List.mem_map.mpr ⟨r, hr, rfl⟩), by simpa using hnc⟩,
      rfl⟩

/-- Membership in the required coding-value kinds. -/
theorem mem_get_required_type_true (mt : List MainRow) (cat_cols : List String)
    (x : Option String) :
    x ∈ get_required_type mt cat_cols true ↔
      ∃ r ∈ mt, r.type ∈ cat_cols ∧ r.encodingType = x := by
  rw [show get_required_type mt cat_cols true =
      ((mt.filter (fun r => r.type ∈ cat_cols)).map
        (fun r => r.encodingType)).dedup from rfl,
    List.mem_dedup, List.mem_map]
  constructor
  · rintro ⟨r, hrf, rfl⟩
    rw [List.mem_filter] at hrf
    exact ⟨r, hrf.1, by simpa using hrf.2, rfl⟩
  · rintro ⟨r, hr, hc, rfl⟩
    exact ⟨r, List.mem_filter.mpr ⟨hr, by simpa using hc⟩, rfl⟩

/-- C7 (amended): the two missing sets are empty iff every distinct
non-categorical semantic type, resp. every coding-value-kind of a
categorical field (nulls included), has a key in the corresponding
sub-mapping; and a change confined to one sub-mapping changes at most the
corresponding set — the other missing set is unchanged. -/
theorem c7_coverage_amended (T E : List (String × Dtype)) (mt : List MainRow)
    (cat_cols : List String) :
    ((get_missing_types_in_dtype_dict T E mt cat_cols).1 = [] ↔
      ∀ r ∈ mt, r.type ∉ cat_cols → r.type ∈ T.map Prod.fst) ∧
    ((get_missing_types_in_dtype_dict T E mt cat_cols).2 = [] ↔
      ∀ r ∈ mt, r.type ∈ cat_cols →
        r.encodingType ∈ E.map (fun kv => some kv.1)) ∧
    (∀ T', (get_missing_types_in_dtype_dict T' E mt cat_cols).2 =
      (get_missing_types_in_dtype_dict T E mt cat_cols).2) ∧
    (∀ E', (get_missing_types_in_dtype_dict T E' mt cat_cols).1 =
      (get_missing_types_in_dtype_dict T E mt cat_cols).1) := by
  refine ⟨?_, ?_, fun T' => rfl, fun E' => rfl⟩
  · rw [show (get_missing_types_in_dtype_dict T E mt cat_cols).1 =
        create_missing_type_set (T.map (fun kv => some kv.1))
          (get_required_type mt cat_cols false) from rfl,
      create_missing_type_set_eq_nil]
    constructor
    · intro h r hr hnc
      have hx := h (some r.type)
        ((mem_get_required_type_false mt cat_cols _).mpr ⟨r, hr, hnc, rfl⟩)
      rw [List.mem_map] at hx ⊢
      obtain ⟨kv, hkv, he⟩ := hx
      exact ⟨kv, hkv, by injection he⟩
    · intro h x hx
      obtain ⟨r, hr, hnc, rfl⟩ :=
        (mem_get_required_type_false mt cat_cols x).mp hx
      have hm := h r hr hnc
      rw [List.mem_map] at hm ⊢
      obtain ⟨kv, hkv, he⟩ := hm
      exact ⟨kv, hkv, by rw [he]⟩
  · rw [show (get_missing_types_in_dtype_dict T E mt cat_cols).2 =
        create_missing_type_set (E.map (fun kv => some kv.1))
          (get_required_type mt cat_cols true) from rfl,
      create_missing_type_set_eq_nil]
    constructor
    · intro h r hr hc
      exact h r.encodingType
        ((mem_get_required_type_true mt cat_cols _).mpr ⟨r, hr, hc, rfl⟩)
    · intro h x hx
      obtain ⟨r, hr, hc, rfl⟩ :=
        (mem_get_required_type_true mt cat_cols x).mp hx
      exact h r hr hc

/-! ## Association-list dict lemmas -/

/-- Keys after a deletion. -/
theorem dictKeys_dictErase (k : Nat) (m : List (Nat × CodingTable)) :
    dictKeys (dictErase k m) = (dictKeys m).filter (fun x => x ≠ k) := by
  induction m with
  | nil => rfl
  | cons kv rest ih =>
    by_cases h : kv.1 = k
    · simpa [dictErase, dictKeys, List.filter_cons, h] using ih
    · simpa [dictErase, dictKeys, List.filter_cons, h] using ih

/-- Deleting one key does not affect lookups of other keys. -/
theorem lookup_dictErase_ne (k a : Nat) (m : List (Nat × CodingTable))
    (h : k ≠ a) : (dictErase a m).lookup k = m.lookup k := by
  induction m with
  | nil => rfl
  | cons kv rest ih =>
    by_cases hk : kv.1 = a
    · have hne : (k == kv.1) = false := by
        simp only [beq_eq_false_iff_ne, ne_eq]
        exact fun he => h (he.trans hk)
      have hne2 : (k == a) = false := by
        simp only [beq_eq_false_iff_ne, ne_eq]; exact h
      simpa [dictErase, List.filter_cons, hk, List.lookup, hne, hne2] using ih
    · by_cases hkk : k = kv.1
      · simp [dictErase, List.filter_cons, hk, List.lookup, hkk]
      · have hne : (k == kv.1) = false := by
          simp only [beq_eq_false_iff_ne, ne_eq]; exact hkk
        simpa [dictErase, List.filter_cons, hk, List.lookup, hne] using ih

/-- Appending a fresh key makes it found with its value. -/
theorem lookup_append_fresh (k : Nat) (v : CodingTable)
    (m : List (Nat × CodingTable)) (h : k ∉ dictKeys m) :
    (m ++ [(k, v)]).lookup k = some v := by
  induction m with
  | nil => simp [List.lookup]
  | cons kv rest ih =>
    simp only [dictKeys, List.map_cons, List.mem_cons, not_or] at h
    have hne : (k == kv.1) = false := by
      simp only [beq_eq_false_iff_ne, ne_eq]; exact h.1
    simp only [List.cons_append, List.lookup, hne]
    exact ih h.2

/-- A key is found iff it is among the dict's keys. -/
theorem lookup_isSome_iff_mem (k : Nat) (m : List (Nat × CodingTable)) :
    (m.lookup k).isSome ↔ k ∈ dictKeys m := by
  induction m with
  | nil => simp [List.lookup, dictKeys]
  | cons kv rest ih =>
    simp only [dictKeys, List.map_cons, List.mem_cons]
    by_cases hk : k = kv.1
    · simp [List.lookup, hk]
    · have hne : (k == kv.1) = false := by
        simp only [beq_eq_false_iff_ne, ne_eq]; exact hk
      simp [List.lookup, hne, hk, ih, dictKeys]

/-! ## Eviction-loop lemmas -/

/-- The recency order left by the eviction loop: the first
`length − limit` entries — the least-recently-used ones — are dropped. -/
theorem removeOldestLoop_snd (limit : Nat) (tables : List (Nat × CodingTable))
    (order : List Nat) :
    (removeOldestLoop limit tables order).2 =
      order.drop (order.length - limit) := by
  induction order generalizing tables with
  | nil => simp [removeOldestLoop]
  | cons a rest ih =>
    by_cases h : rest.length + 1 ≤ limit
    · rw [removeOldestLoop, if_pos h]
      have : (a :: rest).length - limit = 0 := by
        simp only [List.length_cons]; omega
      rw [this, List.drop_zero]
    · rw [removeOldestLoop, if_neg h, ih]
      have : (a :: rest).length - limit = (rest.length - limit) + 1 := by
        simp only [List.length_cons]; omega
      rw [this, List.drop_succ_cons]

/-- The eviction loop leaves at most `limit` entries in the recency
order. -/
theorem removeOldestLoop_length_le (limit : Nat)
    (tables : List (Nat × CodingTable)) (order : List Nat) :
    (removeOldestLoop limit tables order).2.length ≤ limit := by
  rw [removeOldestLoop_snd, List.length_drop]
  omega

/-- The eviction loop preserves cache consistency and does not disturb
the cached tables of the ids it retains. -/
theorem removeOldestLoop_consistent (limit : Nat) :
    ∀ (tables : List (Nat × CodingTable)) (order : List Nat),
      order.Nodup → (dictKeys tables).Perm order →
      (dictKeys (removeOldestLoop limit tables order).1).Perm
          (removeOldestLoop limit tables order).2 ∧
      (removeOldestLoop limit tables order).2.Nodup ∧
      (∀ k ∈ (removeOldestLoop limit tables order).2,
        (removeOldestLoop limit tables order).1.lookup k = tables.lookup k) := by
  intro tables order
  induction order generalizing tables with
  | nil =>
    intro _ hperm
    exact ⟨by simpa [removeOldestLoop] using hperm, by simp [removeOldestLoop],
      by simp [removeOldestLoop]⟩
  | cons a rest ih =>
    intro hnd hperm
    by_cases h : rest.length + 1 ≤ limit
    · rw [removeOldestLoop, if_pos h]
      exact ⟨hperm, hnd, fun k _ => rfl⟩
    · rw [removeOldestLoop, if_neg h]
      have hnd' : rest.Nodup := hnd.of_cons
      have hna : a ∉ rest := by
        have := List.nodup_cons.mp hnd; exact this.1
      have hperm' : (dictKeys (dictErase a tables)).Perm rest := by
        rw [dictKeys_dictErase]
        have h1 : ((dictKeys tables).filter (fun x => x ≠ a)).Perm
            ((a :: rest).filter (fun x => x ≠ a)) := hperm.filter _
        have h2 : (a :: rest).filter (fun x => x ≠ a) = rest := by
          have hstep : (a :: rest).filter (fun x => x ≠ a) =
              rest.filter (fun x => x ≠ a) := by
            simp [List.filter_cons]
          rw [hstep, List.filter_eq_self]
          intro b hb
          simp only [ne_eq, decide_eq_true_eq]
          exact fun he => hna (he ▸ hb)
        rw [h2] at h1
        exact h1
      obtain ⟨hp, hn, hl⟩ := ih (dictErase a tables) hnd' hperm'
      refine ⟨hp, hn, fun k hk => ?_⟩
      rw [hl k hk]
      have hkr : k ∈ rest := by
        have := removeOldestLoop_snd limit (dictErase a tables) rest
        rw [this] at hk
        exact List.mem_of_mem_drop hk
      exact lookup_dictErase_ne k a tables (fun he => hna (he ▸ hkr))

/-- `getLast?` of a list with an appended element. -/
theorem getLast?_append_singleton {α : Type} (l : List α) (a : α) :
    (l ++ [a]).getLast? = some a := by
  induction l with
  | nil => rfl
  | cons b rest ih =>
    cases rest with
    | nil => rfl
    | cons c t =>
      rw [List.cons_append, List.cons_append, List.getLast?_cons_cons]
      exact ih

/-! ## `get_encoding_table` lemmas -/

/-- `dict.any (·.1 = k)` decides key membership. -/
theorem any_key_eq_true_iff (k : Nat) (m : List (Nat × CodingTable)) :
    (m.any (fun kv => kv.1 = k)) = true ↔ k ∈ dictKeys m := by
  rw [List.any_eq_true]
  constructor
  · rintro ⟨kv, hkv, he⟩
    rw [decide_eq_true_eq] at he
    exact he ▸ List.mem_map.mpr ⟨kv, hkv, rfl⟩
  · intro hk
    obtain ⟨kv, hkv, he⟩ := List.mem_map.mp hk
    exact ⟨kv, hkv, by rw [decide_eq_true_eq]; exact he⟩

/-- Inserting a fresh key appends it. -/
theorem dictInsert_fresh (k : Nat) (v : CodingTable)
    (m : List (Nat × CodingTable)) (h : k ∉ dictKeys m) :
    dictInsert k v m = m ++ [(k, v)] := by
  unfold dictInsert
  rw [if_neg]
  intro hany
  exact h ((any_key_eq_true_iff k m).mp hany)

/-- `_add_encoding_table_to_cache` leaves the state untouched when the
retrieval fails. -/
theorem add_error_state (d : UKB_DataDict) (env : Env) (encoding_id : Nat)
    (d' : UKB_DataDict) (e : UkbErr) (evs : List IOEvent)
    (h : _add_encoding_table_to_cache d env encoding_id =
      (d', .error e, evs)) : d' = d := by
  unfold _add_encoding_table_to_cache at h
  split at h
  · simp only [Prod.mk.injEq] at h
    exact h.1.symm
  · simp at h

/-- In a consistent state with the id not yet cached, a successful
`_add_encoding_table_to_cache` leaves the id in the dict. -/
theorem add_ok_lookup (d : UKB_DataDict) (env : Env) (encoding_id : Nat)
    (d' : UKB_DataDict) (u : Unit) (evs : List IOEvent)
    (hnd : d.saved_encodings.Nodup)
    (hperm : (dictKeys d.data_encoding_tables).Perm d.saved_encodings)
    (hlim : 1 ≤ d.encoding_table_limit)
    (hmiss : encoding_id ∉ dictKeys d.data_encoding_tables)
    (h : _add_encoding_table_to_cache d env encoding_id = (d', .ok u, evs)) :
    ∃ t, d'.data_encoding_tables.lookup encoding_id = some t := by
  unfold _add_encoding_table_to_cache at h
  split at h
  · simp at h
  · rename_i t evs' hret
    simp only [Prod.mk.injEq] at h
    obtain ⟨hd, -, -⟩ := h
    have hnotin : encoding_id ∉ d.saved_encodings := fun hin =>
      hmiss (hperm.mem_iff.mpr hin)
    have hins := dictInsert_fresh encoding_id t d.data_encoding_tables hmiss
    have hkeys : dictKeys (dictInsert encoding_id t d.data_encoding_tables) =
        dictKeys d.data_encoding_tables ++ [encoding_id] := by
      rw [hins]; simp [dictKeys]
    have hnd1 : (d.saved_encodings ++ [encoding_id]).Nodup := by
      rw [List.nodup_append]
      exact ⟨hnd, List.nodup_singleton _, fun a ha hb => by
        simp only [List.mem_singleton] at hb
        exact hnotin (hb ▸ ha)⟩
    have hperm1 : (dictKeys (dictInsert encoding_id t
        d.data_encoding_tables)).Perm
        (d.saved_encodings ++ [encoding_id]) := by
      rw [hkeys]
      exact hperm.append_right [encoding_id]
    obtain ⟨-, -, hl⟩ := removeOldestLoop_consistent d.encoding_table_limit
      (dictInsert encoding_id t d.data_encoding_tables)
      (d.saved_encodings ++ [encoding_id]) hnd1 hperm1
    have hmem : encoding_id ∈ (removeOldestLoop d.encoding_table_limit
        (dictInsert encoding_id t d.data_encoding_tables)
        (d.saved_encodings ++ [encoding_id])).2 := by
      rw [removeOldestLoop_snd]
      have hle : (d.saved_encodings ++ [encoding_id]).length -
          d.encoding_table_limit ≤ d.saved_encodings.length := by
        simp only [List.length_append, List.length_singleton]
        omega
      rw [List.drop_append_of_le_length hle]
      exact List.mem_append_right _ (List.mem_singleton_self _)
    refine ⟨t, ?_⟩
    rw [← hd]
    show ((removeOldestLoop d.encoding_table_limit
      (dictInsert encoding_id t d.data_encoding_tables)
      (d.saved_encodings ++ [encoding_id])).1.lookup encoding_id) = some t
    rw [hl encoding_id hmem, hins]
    exact lookup_append_fresh encoding_id t d.data_encoding_tables hmiss

/-- A successful `get_encoding_table` leaves the returned table cached
under its id. -/
theorem get_encoding_table_ok_lookup (d : UKB_DataDict) (env : Env)
    (encoding_id : Nat) (t : CodingTable) (d1 : UKB_DataDict)
    (evs : List IOEvent)
    (h : get_encoding_table d env encoding_id = (d1, .ok t, evs)) :
    d1.data_encoding_tables.lookup encoding_id = some t := by
  unfold get_encoding_table at h
  by_cases hm : (d.data_encoding_tables.lookup encoding_id).isSome
  · rw [if_pos hm] at h
    split at h
    · rename_i t' hl
      simp only [Prod.mk.injEq] at h
      obtain ⟨hd, ht, -⟩ := h
      have ht' : t' = t := by injection ht
      rw [← hd]
      exact ht' ▸ hl
    · simp at h
  · rw [if_neg hm] at h
    split at h
    · simp at h
    · rename_i d1' u evs' hadd
      split at h
      · rename_i t' hl
        simp only [Prod.mk.injEq] at h
        obtain ⟨hd, ht, -⟩ := h
        have ht' : t' = t := by injection ht
        rw [← hd]
        exact ht' ▸ hl
      · simp at h

/-! ## C5: invalid coding id fails before any coding-file or network access -/

/-- C5: requesting a coding id that is absent from the main table's
`Encoding_id` values (and not cached) fails — with the invalid-coding-id
error as the innermost cause of the raised error chain — with an empty
I/O trace: no coding-table file read or write and no network fetch was
attempted, and the cache state is untouched. -/
theorem c5_invalid_id_fails_before_io (d : UKB_DataDict) (env : Env)
    (encoding_id : Nat)
    (hinvalid : _encoding_id_is_valid d encoding_id = false)
    (hmiss : d.data_encoding_tables.lookup encoding_id = none) :
    get_encoding_table d env encoding_id =
      (d, .error (.encodingReadFailed encoding_id
        (.invalidEncodingId encoding_id)), []) ∧
    rootCause (UkbErr.encodingReadFailed encoding_id
        (.invalidEncodingId encoding_id)) =
      UkbErr.invalidEncodingId encoding_id := by
  refine ⟨?_, rfl⟩
  unfold get_encoding_table
  rw [hmiss]
  rw [if_neg (by simp)]
  unfold _add_encoding_table_to_cache _retrieve_encoding_table
  rw [hinvalid]
  simp

/-- Witness for C5: a one-field schema whose only coding id is 7; id 9 is
invalid and rejected with an empty trace. -/
theorem c5_invalid_id_witness :
    (_encoding_id_is_valid
        ⟨[⟨"21-0.0", "Categorical (single)", "", some 7, some 5,
          some "Integer", false⟩], [], [], 10⟩ 9 = false ∧
      (([] : List (Nat × CodingTable)).lookup 9 = none)) ∧
    get_encoding_table
        ⟨[⟨"21-0.0", "Categorical (single)", "", some 7, some 5,
          some "Integer", false⟩], [], [], 10⟩
        ⟨fun _ => .absent, fun _ => .absent, fun _ => none⟩ 9 =
      (⟨[⟨"21-0.0", "Categorical (single)", "", some 7, some 5,
          some "Integer", false⟩], [], [], 10⟩,
       .error (.encodingReadFailed 9 (.invalidEncodingId 9)), []) :=
  ⟨⟨by decide, rfl⟩,
    (c5_invalid_id_fails_before_io
      ⟨[⟨"21-0.0", "Categorical (single)", "", some 7, some 5,
        some "Integer", false⟩], [], [], 10⟩
      ⟨fun _ => .absent, fun _ => .absent, fun _ => none⟩ 9
      (by decide) rfl).1⟩

/-! ## C6: repeated request is a cache hit moved to most-recently-used -/

/-- C6: after any successful `get_encoding_table` call, a second call for
the same id — against any environment — returns the identical table with
an empty I/O trace (no re-parse, no re-fetch), and its only state change
is moving the id to the most-recently-used (last) position of the recency
order. -/
theorem c6_second_call_hits_cache (d : UKB_DataDict) (env env2 : Env)
    (encoding_id : Nat) (t : CodingTable) (d1 : UKB_DataDict)
    (evs : List IOEvent)
    (h : get_encoding_table d env encoding_id = (d1, .ok t, evs)) :
    get_encoding_table d1 env2 encoding_id =
      (_update_saved_encoding_order d1 encoding_id, .ok t, []) ∧
    (_update_saved_encoding_order d1 encoding_id).data_encoding_tables =
      d1.data_encoding_tables ∧
    (_update_saved_encoding_order d1 encoding_id).saved_encodings =
      d1.saved_encodings.erase encoding_id ++ [encoding_id] ∧
    (_update_saved_encoding_order d1 encoding_id).saved_encodings.getLast? =
      some encoding_id := by
  have hl := get_encoding_table_ok_lookup d env encoding_id t d1 evs h
  refine ⟨?_, rfl, rfl, getLast?_append_singleton _ _⟩
  have hup : (_update_saved_encoding_order d1
      encoding_id).data_encoding_tables.lookup encoding_id = some t := hl
  unfold get_encoding_table
  rw [if_pos (by rw [hl]; rfl)]
  rw [hup]

/-- Witness for C6: a concrete first call that parses the embedded coding
table for id 7, followed by the second call against a different (empty)
environment. -/
theorem c6_second_call_witness :
    get_encoding_table
        ⟨[⟨"21-0.0", "Categorical (single)", "", some 7, some 5,
          some "Integer", false⟩], [], [], 10⟩
        ⟨fun _ => .absent, fun _ => .absent,
          fun i => if i = 7 then some [⟨"1", "one", "Y", ""⟩] else none⟩ 7 =
      (⟨[⟨"21-0.0", "Categorical (single)", "", some 7, some 5,
          some "Integer", false⟩], [(7, [⟨"1", "one", "Y", ""⟩])], [7], 10⟩,
        .ok [⟨"1", "one", "Y", ""⟩], []) ∧
    get_encoding_table
        ⟨[⟨"21-0.0", "Categorical (single)", "", some 7, some 5,
          some "Integer", false⟩], [(7, [⟨"1", "one", "Y", ""⟩])], [7], 10⟩
        ⟨fun _ => .absent, fun _ => .absent, fun _ => none⟩ 7 =
      (_update_saved_encoding_order
          ⟨[⟨"21-0.0", "Categorical (single)", "", some 7, some 5,
            some "Integer", false⟩], [(7, [⟨"1", "one", "Y", ""⟩])], [7], 10⟩ 7,
        .ok [⟨"1", "one", "Y", ""⟩], []) :=
  ⟨rfl,
    (c6_second_call_hits_cache
      ⟨[⟨"21-0.0", "Categorical (single)", "", some 7, some 5,
        some "Integer", false⟩], [], [], 10⟩
      ⟨fun _ => .absent, fun _ => .absent,
        fun i => if i = 7 then some [⟨"1", "one", "Y", ""⟩] else none⟩
      ⟨fun _ => .absent, fun _ => .absent, fun _ => none⟩ 7
      [⟨"1", "one", "Y", ""⟩]
      ⟨[⟨"21-0.0", "Categorical (single)", "", some 7, some 5,
        some "Integer", false⟩], [(7, [⟨"1", "one", "Y", ""⟩])], [7], 10⟩
      [] rfl).1⟩

/-! ## C10: a failed retrieval leaves the cache exactly as it was -/

/-- C10: whenever `get_encoding_table` fails — for any reason the
environment or the id can produce — the coding cache is exactly as before
the call: the id was inserted into neither the id-to-table dict nor the
recency list, and no entry was evicted or reordered. -/
theorem c10_failure_leaves_cache_unchanged (d : UKB_DataDict) (env : Env)
    (encoding_id : Nat) (e : UkbErr) (d1 : UKB_DataDict) (evs : List IOEvent)
    (hcons : cacheConsistent d)
    (h : get_encoding_table d env encoding_id = (d1, .error e, evs)) :
    d1.data_encoding_tables = d.data_encoding_tables ∧
    d1.saved_encodings = d.saved_encodings := by
  obtain ⟨hnd, hperm, hlim⟩ := hcons
  unfold get_encoding_table at h
  by_cases hm : (d.data_encoding_tables.lookup encoding_id).isSome
  · rw [if_pos hm] at h
    obtain ⟨t, ht⟩ := Option.isSome_iff_exists.mp hm
    have hup : (_update_saved_encoding_order d
        encoding_id).data_encoding_tables.lookup encoding_id = some t := ht
    rw [hup] at h
    simp at h
  · rw [if_neg hm] at h
    have hmiss : encoding_id ∉ dictKeys d.data_encoding_tables := by
      rw [← lookup_isSome_iff_mem]
      exact fun hs => hm hs
    split at h
    · rename_i d' e' evs' hadd
      have hd : d' = d := add_error_state d env encoding_id d' e' evs' hadd
      simp only [Prod.mk.injEq] at h
      rw [← h.1, hd]
      exact ⟨rfl, rfl⟩
    · rename_i d' u evs' hadd
      obtain ⟨t, ht⟩ := add_ok_lookup d env encoding_id d' u evs' hnd hperm
        hlim hmiss hadd
      rw [ht] at h
      simp at h

/-- Witness for C10: requesting the invalid id 9 errors and leaves the
cache fields of the state unchanged. -/
theorem c10_failure_witness :
    cacheConsistent
      ⟨[⟨"21-0.0", "Categorical (single)", "", some 7, some 5,
        some "Integer", false⟩], [], [], 10⟩ ∧
    ((⟨[⟨"21-0.0", "Categorical (single)", "", some 7, some 5,
        some "Integer", false⟩], [], [], 10⟩ : UKB_DataDict).data_encoding_tables
        = [] ∧
      (⟨[⟨"21-0.0", "Categorical (single)", "", some 7, some 5,
        some "Integer", false⟩], [], [], 10⟩ : UKB_DataDict).saved_encodings
        = []) :=
  ⟨⟨by decide, by decide, by decide⟩,
    c10_failure_leaves_cache_unchanged
      ⟨[⟨"21-0.0", "Categorical (single)", "", some 7, some 5,
        some "Integer", false⟩], [], [], 10⟩
      ⟨fun _ => .absent, fun _ => .absent, fun _ => none⟩ 9
      (.encodingReadFailed 9 (.invalidEncodingId 9))
      ⟨[⟨"21-0.0", "Categorical (single)", "", some 7, some 5,
        some "Integer", false⟩], [], [], 10⟩ []
      ⟨by decide, by decide, by decide⟩ rfl⟩

/-! ## C3: capacity bound and least-recently-used eviction -/

/-- The possible post-states of `get_encoding_table`: a hit touches only
the recency order; a failed miss leaves the state unchanged; a successful
miss inserts the new entry and runs eviction. -/
theorem get_encoding_table_state_cases (d : UKB_DataDict) (env : Env)
    (encoding_id : Nat) :
    ((d.data_encoding_tables.lookup encoding_id).isSome = true ∧
      (get_encoding_table d env encoding_id).1 =
        _update_saved_encoding_order d encoding_id) ∨
    (get_encoding_table d env encoding_id).1 = d ∨
    ((d.data_encoding_tables.lookup encoding_id).isSome = false ∧
      ∃ t, (get_encoding_table d env encoding_id).1 =
        _remove_oldest_if_needed_encoding_cache
          { d with
            data_encoding_tables :=
              dictInsert encoding_id t d.data_encoding_tables,
            saved_encodings := d.saved_encodings ++ [encoding_id] }) := by
  unfold get_encoding_table
  by_cases hm : (d.data_encoding_tables.lookup encoding_id).isSome
  · rw [if_pos hm]
    left
    refine ⟨hm, ?_⟩
    split <;> rfl
  · rw [if_neg hm]
    have hm' : (d.data_encoding_tables.lookup encoding_id).isSome = false := by
      cases hb : (d.data_encoding_tables.lookup encoding_id).isSome with
      | false => rfl
      | true => exact absurd hb hm
    unfold _add_encoding_table_to_cache
    cases hret : _retrieve_encoding_table d env encoding_id with
    | mk res evs =>
      cases res with
      | error e => right; left; rfl
      | ok t =>
        right; right
        refine ⟨hm', t, ?_⟩
        split
        · rename_i d1 e evs1 heq
          simp at heq
        · rename_i d1 u evs1 heq
          simp only [Prod.mk.injEq] at heq
          obtain ⟨hd1, -, -⟩ := heq
          split
          · exact hd1.symm
          · exact hd1.symm

/-- C3: starting from a consistent, within-capacity cache,
`get_encoding_table` keeps both cache structures within the (unchanged)
capacity; lowering the capacity at runtime through the setter evicts down
to the new limit, dropping exactly the least-recently-used prefix of the
recency order; and the eviction loop always retains exactly the
most-recently-used `limit` entries. -/
theorem c3_capacity_and_lru_eviction (d : UKB_DataDict) (env : Env)
    (encoding_id limit : Nat)
    (hcons : cacheConsistent d) (hbound : cacheBounded d) :
    (cacheBounded (get_encoding_table d env encoding_id).1 ∧
      (get_encoding_table d env encoding_id).1.encoding_table_limit =
        d.encoding_table_limit) ∧
    (∀ d', set_encoding_table_limit d limit = .ok d' →
      cacheBounded d' ∧ d'.encoding_table_limit = limit ∧
      d'.saved_encodings =
        d.saved_encodings.drop (d.saved_encodings.length - limit)) ∧
    (∀ (tables : List (Nat × CodingTable)) (order : List Nat),
      (removeOldestLoop limit tables order).2 =
        order.drop (order.length - limit)) := by
  obtain ⟨hnd, hperm, hlim⟩ := hcons
  obtain ⟨hbs, hbt⟩ := hbound
  have hkeyslen : ∀ m : List (Nat × CodingTable),
      (dictKeys m).length = m.length := fun m => List.length_map m Prod.fst
  refine ⟨?_, ?_, fun tables order => removeOldestLoop_snd limit tables order⟩
  · rcases get_encoding_table_state_cases d env encoding_id with
      ⟨hhit, hst⟩ | hst | ⟨hm, t, hst⟩
    · rw [hst]
      have hmem : encoding_id ∈ d.saved_encodings :=
        hperm.mem_iff.mp ((lookup_isSome_iff_mem _ _).mp hhit)
      have hlen : (d.saved_encodings.erase encoding_id).length =
          d.saved_encodings.length - 1 := List.length_erase_of_mem hmem
      have hpos : 1 ≤ d.saved_encodings.length :=
        List.length_pos.mpr (List.ne_nil_of_mem hmem)
      refine ⟨⟨?_, hbt⟩, rfl⟩
      show (d.saved_encodings.erase encoding_id ++ [encoding_id]).length ≤
        d.encoding_table_limit
      rw [List.length_append, hlen]
      simp only [List.length_singleton]
      omega
    · rw [hst]
      exact ⟨⟨hbs, hbt⟩, rfl⟩
    · rw [hst]
      have hmiss : encoding_id ∉ dictKeys d.data_encoding_tables := by
        rw [← lookup_isSome_iff_mem, hm]
        exact Bool.false_ne_true
      have hnotin : encoding_id ∉ d.saved_encodings := fun hin =>
        hmiss (hperm.mem_iff.mpr hin)
      have hins := dictInsert_fresh encoding_id t d.data_encoding_tables hmiss
      have hkeys : dictKeys (dictInsert encoding_id t d.data_encoding_tables) =
          dictKeys d.data_encoding_tables ++ [encoding_id] := by
        rw [hins]; simp [dictKeys]
      have hnd1 : (d.saved_encodings ++ [encoding_id]).Nodup := by
        rw [List.nodup_append]
        exact ⟨hnd, List.nodup_singleton _, fun a ha hb => by
          simp only [List.mem_singleton] at hb
          exact hnotin (hb ▸ ha)⟩
      have hperm1 : (dictKeys (dictInsert encoding_id t
          d.data_encoding_tables)).Perm
          (d.saved_encodings ++ [encoding_id]) := by
        rw [hkeys]
        exact hperm.append_right [encoding_id]
      obtain ⟨hp, -, -⟩ := removeOldestLoop_consistent d.encoding_table_limit
        (dictInsert encoding_id t d.data_encoding_tables)
        (d.saved_encodings ++ [encoding_id]) hnd1 hperm1
      refine ⟨⟨removeOldestLoop_length_le _ _ _, ?_⟩, rfl⟩
      show (removeOldestLoop d.encoding_table_limit
        (dictInsert encoding_id t d.data_encoding_tables)
        (d.saved_encodings ++ [encoding_id])).1.length ≤ d.encoding_table_limit
      rw [← hkeyslen, hp.length_eq]
      exact removeOldestLoop_length_le _ _ _
  · intro d' hset
    unfold set_encoding_table_limit at hset
    split at hset
    · simp at hset
    · rename_i hl0
      have hd' : d' = _remove_oldest_if_needed_encoding_cache
          { d with encoding_table_limit := limit } := by
        injection hset with h
        exact h.symm
      subst hd'
      refine ⟨⟨removeOldestLoop_length_le _ _ _, ?_⟩, rfl,
        removeOldestLoop_snd _ _ _⟩
      obtain ⟨hp, -, -⟩ := removeOldestLoop_consistent limit
        d.data_encoding_tables d.saved_encodings hnd hperm
      show (removeOldestLoop limit d.data_encoding_tables
        d.saved_encodings).1.length ≤ limit
      rw [← hkeyslen, hp.length_eq]
      exact removeOldestLoop_length_le _ _ _

/-- Witness for C3: a consistent two-entry cache at capacity 2; a `get`
of a fresh id keeps the cache within capacity, and lowering the capacity
to 1 evicts the least-recently-used entry 3, keeping 4. -/
theorem c3_capacity_witness :
    (cacheConsistent
        ⟨[⟨"21-0.0", "Categorical (single)", "", some 7, some 5,
          some "Integer", false⟩],
          [(3, [⟨"a", "x", "Y", ""⟩]), (4, [⟨"b", "y", "Y", ""⟩])],
          [3, 4], 2⟩ ∧
      cacheBounded
        ⟨[⟨"21-0.0", "Categorical (single)", "", some 7, some 5,
          some "Integer", false⟩],
          [(3, [⟨"a", "x", "Y", ""⟩]), (4, [⟨"b", "y", "Y", ""⟩])],
          [3, 4], 2⟩) ∧
    (∀ d', set_encoding_table_limit
        ⟨[⟨"21-0.0", "Categorical (single)", "", some 7, some 5,
          some "Integer", false⟩],
          [(3, [⟨"a", "x", "Y", ""⟩]), (4, [⟨"b", "y", "Y", ""⟩])],
          [3, 4], 2⟩ 1 = .ok d' →
      cacheBounded d' ∧ d'.encoding_table_limit = 1 ∧
      d'.saved_encodings = [3, 4].drop ([3, 4].length - 1)) :=
  ⟨⟨⟨by decide, by decide, by decide⟩, ⟨by decide, by decide⟩⟩,
    (c3_capacity_and_lru_eviction
      ⟨[⟨"21-0.0", "Categorical (single)", "", some 7, some 5,
        some "Integer", false⟩],
        [(3, [⟨"a", "x", "Y", ""⟩]), (4, [⟨"b", "y", "Y", ""⟩])],
        [3, 4], 2⟩
      ⟨fun _ => .absent, fun _ => .absent, fun _ => none⟩ 7 1
      ⟨by decide, by decide, by decide⟩ ⟨by decide, by decide⟩).2.1⟩

/-! ## C9: name resolution by partial id -/

/-- A duplicate-free list whose members all equal `d` has at most one
element. -/
theorem nodup_all_eq_length_le_one {α : Type} (L : List α) (d : α)
    (hnd : L.Nodup) (hall : ∀ x ∈ L, x = d) : L.length ≤ 1 := by
  cases L with
  | nil => simp
  | cons a t =>
    cases t with
    | nil => simp
    | cons b t2 =>
      have ha : a = d := hall a (List.mem_cons_self _ _)
      have hb : b = d := hall b (List.mem_cons_of_mem _ (List.mem_cons_self _ _))
      have hnin : a ∉ b :: t2 := (List.nodup_cons.mp hnd).1
      exact absurd (by rw [ha, ← hb]; exact List.mem_cons_self _ _) hnin

/-- C9: resolving a name by partial id, when at least one `UDI` matches:
if all matching rows carry one common description, the call returns that
description truncated at the first `" Uses data-coding"`; if two matching
rows carry differing descriptions, the call fails with the
ambiguous-field error. -/
theorem c9_partial_id_name_resolution (mt : List MainRow) (field_id : String)
    (hne : mt.filter (fun r => splitDashHead r.udi = field_id) ≠ []) :
    (∀ dsc, (∀ r ∈ mt.filter (fun r => splitDashHead r.udi = field_id),
        r.description = dsc) →
      get_human_readable_name mt field_id false = .ok (stripCodingNote dsc)) ∧
    ((∃ r1 ∈ mt.filter (fun r => splitDashHead r.udi = field_id),
      ∃ r2 ∈ mt.filter (fun r => splitDashHead r.udi = field_id),
        r1.description ≠ r2.description) →
      get_human_readable_name mt field_id false =
        .error (.ambiguousFieldId field_id)) := by
  have hfn : get_human_readable_name mt field_id false =
      (match mt.filter (fun r => splitDashHead r.udi = field_id) with
      | [] => .error (.fieldIdNotFound field_id)
      | [r] => .ok (stripCodingNote r.description)
      | r :: rest =>
        if (((r :: rest).map (fun x => x.description)).dedup).length > 1 then
          .error (.ambiguousFieldId field_id)
        else
          .ok (stripCodingNote r.description)) := rfl
  cases hM : mt.filter (fun r => splitDashHead r.udi = field_id) with
  | nil => exact absurd hM hne
  | cons r rest =>
    cases rest with
    | nil =>
      constructor
      · intro dsc hall
        rw [hfn, hM]
        have hr : r.description = dsc := hall r (List.mem_singleton_self r)
        show Except.ok (stripCodingNote r.description) =
          Except.ok (stripCodingNote dsc)
        rw [hr]
      · rintro ⟨r1, h1, r2, h2, hne12⟩
        simp only [List.mem_singleton] at h1 h2
        subst h1; subst h2
        exact absurd rfl hne12
    | cons rb t =>
      constructor
      · intro dsc hall
        rw [hfn, hM]
        have hall' : ∀ x ∈ ((r :: rb :: t).map (fun x => x.description)).dedup,
            x = dsc := by
          intro x hx
          obtain ⟨y, hy, rfl⟩ := List.mem_map.mp (List.mem_dedup.mp hx)
          exact hall y hy
        have hd1 : (((r :: rb :: t).map
            (fun x => x.description)).dedup).length ≤ 1 :=
          nodup_all_eq_length_le_one _ dsc (List.nodup_dedup _) hall'
        show (if (((r :: rb :: t).map
              (fun x => x.description)).dedup).length > 1 then
            (Except.error (UkbErr.ambiguousFieldId field_id) :
              Except UkbErr String)
          else Except.ok (stripCodingNote r.description)) =
          Except.ok (stripCodingNote dsc)
        rw [if_neg (by omega)]
        have hr : r.description = dsc := hall r (List.mem_cons_self _ _)
        rw [hr]
      · rintro ⟨r1, h1, r2, h2, hne12⟩
        rw [hfn, hM]
        have hgt : (((r :: rb :: t).map
            (fun x => x.description)).dedup).length > 1 := by
          by_contra hle
          push_neg at hle
          have hmem1 : r1.description ∈
              ((r :: rb :: t).map (fun x => x.description)).dedup :=
            List.mem_dedup.mpr (List.mem_map.mpr ⟨r1, h1, rfl⟩)
          have hmem2 : r2.description ∈
              ((r :: rb :: t).map (fun x => x.description)).dedup :=
            List.mem_dedup.mpr (List.mem_map.mpr ⟨r2, h2, rfl⟩)
          cases hdd : ((r :: rb :: t).map (fun x => x.description)).dedup with
          | nil =>
            rw [hdd] at hmem1
            exact absurd hmem1 (List.not_mem_nil _)
          | cons x xs =>
            rw [hdd] at hmem1 hmem2 hle
            have hxs : xs = [] := by
              cases xs with
              | nil => rfl
              | cons c cs => simp at hle
            subst hxs
            simp only [List.mem_singleton] at hmem1 hmem2
            exact hne12 (hmem1.trans hmem2.symm)
        show (if (((r :: rb :: t).map
              (fun x => x.description)).dedup).length > 1 then
            (Except.error (UkbErr.ambiguousFieldId field_id) :
              Except UkbErr String)
          else Except.ok (stripCodingNote r.description)) =
          Except.error (UkbErr.ambiguousFieldId field_id)
        rw [if_pos hgt]

/-- Witness for C9: two `UDI`s `21-0.0` and `21-1.0` with the identical
description resolve, by partial id `21`, to the shared description
truncated at the coding reference. -/
theorem c9_partial_id_witness :
    ([⟨"21-0.0", "Integer", "Weight Uses data-coding 9", some 9, none, none,
        false⟩,
      ⟨"21-1.0", "Integer", "Weight Uses data-coding 9", some 9, none, none,
        false⟩].filter
      (fun r : MainRow => splitDashHead r.udi = "21") ≠ [] ∧
      stripCodingNote "Weight Uses data-coding 9" = "Weight") ∧
    get_human_readable_name
      [⟨"21-0.0", "Integer", "Weight Uses data-coding 9", some 9, none, none,
        false⟩,
       ⟨"21-1.0", "Integer", "Weight Uses data-coding 9", some 9, none, none,
        false⟩] "21" false =
      .ok (stripCodingNote "Weight Uses data-coding 9") :=
  ⟨⟨by decide, by decide⟩,
    (c9_partial_id_name_resolution
      [⟨"21-0.0", "Integer", "Weight Uses data-coding 9", some 9, none, none,
        false⟩,
       ⟨"21-1.0", "Integer", "Weight Uses data-coding 9", some 9, none, none,
        false⟩] "21" (by decide)).1 "Weight Uses data-coding 9" (by decide)⟩

end UkbUtils
